import Mathlib

/-!
Shallow embedding of the LC-3 virtual machine (`vm.c`, current revision) and
verification of its specification.  Machine words are modelled as `Nat` with
explicit reduction modulo 2^16 wherever a C `uint16_t` assignment truncates.
The host console is modelled by an input byte list (keyboard) and an output
byte list (stdout); `getchar` at end of input returns `-1` (EOF) as in C.
-/

namespace LC3

/-- `UINT16_MAX` from `<limits.h>`. -/
def UINT16_MAX : Nat := 65535

/-- Number of cells of the global array `uint16_t memory[UINT16_MAX]`:
the C declaration allocates `UINT16_MAX` = 65535 cells, indices 0..65534. -/
def MEMORY_LEN : Nat := UINT16_MAX

/-- An address indexes a valid cell of the declared `memory` array. -/
def memInBounds (a : Nat) : Prop := a < MEMORY_LEN

/- Register-file indices, from the register enum in the source. -/

def R0 : Nat := 0

def R7 : Nat := 7

def PC : Nat := 8

def COND : Nat := 9

/- Opcode values, in the order of the opcode enum in the source. -/

def BR : Nat := 0

def ADD : Nat := 1

def LD : Nat := 2

def ST : Nat := 3

def JSR : Nat := 4

def AND : Nat := 5

def LDR : Nat := 6

def STR : Nat := 7

def RTI : Nat := 8

def NOT : Nat := 9

def LDI : Nat := 10

def STI : Nat := 11

def JMP : Nat := 12

def RES : Nat := 13

def LEA : Nat := 14

def TRAP : Nat := 15

/- Condition flags. -/

def FL_POS : Nat := 1

def FL_ZRO : Nat := 2

def FL_NEG : Nat := 4

/- Trap vectors. -/

def TRAP_GETC : Nat := 0x20

def TRAP_OUT : Nat := 0x21

def TRAP_PUTS : Nat := 0x22

def TRAP_IN : Nat := 0x23

def TRAP_PUTSP : Nat := 0x24

def TRAP_HALT : Nat := 0x25

/- Memory-mapped registers. -/

def MR_KBSR : Nat := 0xFE00

def MR_KBDR : Nat := 0xFE02

/-- The VM state: the global arrays `memory` and `registers` (total maps;
C stores only 16-bit values, which writes below enforce via `% 65536`),
plus the host console: pending stdin bytes and the bytes written to stdout. -/
structure Machine where
  memory : Nat → Nat
  registers : Nat → Nat
  input : List Nat
  output : List Nat

/-- `registers[r] = v` — a C `uint16_t` assignment truncates modulo 2^16. -/
def writeReg (m : Machine) (r v : Nat) : Machine :=
  { m with registers := fun i => if i = r then v % 65536 else m.registers i }

/-- `_mem_write(address, val) { memory[address] = val; }` -/
def _mem_write (m : Machine) (address val : Nat) : Machine :=
  { m with memory := fun x => if x = address then val % 65536 else m.memory x }

/-- `putc(c, stdout)` writes one byte to the host output stream. -/
def putcOut (m : Machine) (b : Nat) : Machine :=
  { m with output := m.output ++ [b] }

/-- Append a list of bytes to the host output stream. -/
def emitList (m : Machine) (bs : List Nat) : Machine :=
  { m with output := m.output ++ bs }

/-- The byte sequence of a host-side string literal. -/
def strBytes (s : String) : List Nat := s.data.map Char.toNat

/-- `getchar()`: the next pending input byte, or `-1` (EOF) when none is
pending.  Returned as `Int` exactly because C `getchar` returns `int`. -/
def getchar (m : Machine) : Int × Machine :=
  match m.input with
  | [] => (-1, m)
  | c :: rest => (((c % 256 : Nat) : Int), { m with input := rest })

/-- C conversion `(uint16_t) v` of an `int` value. -/
def u16_of_int (v : Int) : Nat := (v % 65536).toNat

/-- C conversion `(char) v` of an `int` value (two's-complement wraparound
into [-128, 127], the behavior of the targeted hosts). -/
def char_of_int (v : Int) : Int :=
  if v % 256 ≥ 128 then v % 256 - 256 else v % 256

/-- The byte that `putc` writes for a `char` argument. -/
def byte_of_int (v : Int) : Nat := (v % 256).toNat

/-- `sign_extend(x, bit_count)`: if bit `bit_count - 1` of `x` is set,
`x |= 0xFFFF << bit_count` (the `uint16_t` assignment truncates mod 2^16). -/
def sign_extend (x : Nat) (bit_count : Nat) : Nat :=
  if (x >>> (bit_count - 1)) &&& 1 ≠ 0 then
    (x ||| (0xFFFF <<< bit_count)) % 65536
  else x

/-- `update_flags(r)`: ZRO if `registers[r] == 0`, NEG if `registers[r] >> 15`
is non-zero, else POS. -/
def update_flags (m : Machine) (r : Nat) : Machine :=
  if m.registers r = 0 then writeReg m COND FL_ZRO
  else if m.registers r >>> 15 ≠ 0 then writeReg m COND FL_NEG
  else writeReg m COND FL_POS

/-- The COND value `update_flags` computes from a register value. -/
def flagOf (v : Nat) : Nat :=
  if v = 0 then FL_ZRO else if v >>> 15 ≠ 0 then FL_NEG else FL_POS

/-- `add(instr)`. -/
def add (m : Machine) (instr : Nat) : Machine :=
  let r0 := (instr >>> 9) &&& 0x7
  let r1 := (instr >>> 6) &&& 0x7
  let imm_flag := (instr >>> 5) &&& 0x1
  let m1 :=
    if imm_flag ≠ 0 then
      let imm5 := sign_extend (instr &&& 0x1F) 5
      writeReg m r0 (m.registers r1 + imm5)
    else
      let r2 := instr &&& 0x7
      writeReg m r0 (m.registers r1 + m.registers r2)
  update_flags m1 r0

/-- `and(instr)` — note: the immediate operand is `instr & 0x1F` used as-is,
with no call to `sign_extend`. -/
def and (m : Machine) (instr : Nat) : Machine :=
  let dr := (instr >>> 9) &&& 0x7
  let sr1 := (instr >>> 6) &&& 0x7
  let imm := (instr >>> 5) &&& 0x1
  let m1 :=
    if imm ≠ 0 then
      let imm_value := instr &&& 0x1F
      writeReg m dr (m.registers sr1 &&& imm_value)
    else
      let sr2 := instr &&& 0x7
      writeReg m dr (m.registers sr1 &&& m.registers sr2)
  update_flags m1 dr

/-- `not(instr)`: `registers[dr] = ~registers[sr]`; on 16-bit values the
complement is XOR with 0xFFFF. -/
def not (m : Machine) (instr : Nat) : Machine :=
  let dr := (instr >>> 9) &&& 0x7
  let sr := (instr >>> 6) &&& 0x7
  let m1 := writeReg m dr (m.registers sr ^^^ 0xFFFF)
  update_flags m1 dr

/-- `br(instr)`: branch when `cond_flag & registers[COND]` is non-zero. -/
def br (m : Machine) (instr : Nat) : Machine :=
  let cond_flag := (instr >>> 9) &&& 0x7
  let PCoffset9 := sign_extend (instr &&& 0x1FF) 9
  if cond_flag &&& m.registers COND ≠ 0 then
    writeReg m PC (m.registers PC + PCoffset9)
  else m

/-- `jmp(instr)`. -/
def jmp (m : Machine) (instr : Nat) : Machine :=
  let r1 := (instr >>> 6) &&& 0x7
  writeReg m PC (m.registers r1)

/-- `jsr(instr)`: save PC into R7, then either add the sign-extended 11-bit
offset to PC or jump to the register operand. -/
def jsr (m : Machine) (instr : Nat) : Machine :=
  let long_flag := (instr >>> 11) &&& 1
  let m1 := writeReg m R7 (m.registers PC)
  if long_flag ≠ 0 then
    let pcoffset := sign_extend (instr &&& 0x7FF) 11
    writeReg m1 PC (m1.registers PC + pcoffset)
  else
    let r := (instr >>> 6) &&& 0x7
    writeReg m1 PC (m1.registers r)

/-- `check_key()`: whether a byte is pending on host input. -/
def check_key (m : Machine) : Bool := !m.input.isEmpty

/-- `mem_read(address)`: reading `MR_KBSR` polls the keyboard, updating
`memory[MR_KBSR]` and `memory[MR_KBDR]`; every read returns `memory[address]`
after any such update. -/
def mem_read (m : Machine) (address : Nat) : Nat × Machine :=
  if address = MR_KBSR then
    if check_key m then
      let g := getchar m
      let m2 := _mem_write (_mem_write g.2 MR_KBSR (1 <<< 15)) MR_KBDR (u16_of_int g.1)
      (m2.memory address, m2)
    else
      let m2 := _mem_write m MR_KBSR 0
      (m2.memory address, m2)
  else (m.memory address, m)

/-- `ld(instr)`. -/
def ld (m : Machine) (instr : Nat) : Machine :=
  let dr := (instr >>> 9) &&& 0x7
  let pcoffset := sign_extend (instr &&& 0x1ff) 9
  let rd := mem_read m ((m.registers PC + pcoffset) % 65536)
  update_flags (writeReg rd.2 dr rd.1) dr

/-- `ldi(instr)`. -/
def ldi (m : Machine) (instr : Nat) : Machine :=
  let dr := (instr >>> 9) &&& 0x7
  let pcoffset := sign_extend (instr &&& 0x1ff) 9
  let rd1 := mem_read m ((m.registers PC + pcoffset) % 65536)
  let rd2 := mem_read rd1.2 rd1.1
  update_flags (writeReg rd2.2 dr rd2.1) dr

/-- `ldr(instr)`. -/
def ldr (m : Machine) (instr : Nat) : Machine :=
  let dr := (instr >>> 9) &&& 0x7
  let baser := (instr >>> 6) &&& 0x7
  let offset := sign_extend (instr &&& 0x3F) 6
  let rd := mem_read m ((m.registers baser + offset) % 65536)
  update_flags (writeReg rd.2 dr rd.1) dr

/-- `lea(instr)`. -/
def lea (m : Machine) (instr : Nat) : Machine :=
  let dr := (instr >>> 9) &&& 0x7
  let pcoffset9 := sign_extend (instr &&& 0x1FF) 9
  update_flags (writeReg m dr (m.registers PC + pcoffset9)) dr

/-- `st(instr)`. -/
def st (m : Machine) (instr : Nat) : Machine :=
  let dr := (instr >>> 9) &&& 0x7
  let pc_offset := sign_extend (instr &&& 0x1FF) 9
  _mem_write m ((m.registers PC + pc_offset) % 65536) (m.registers dr)

/-- `sti(instr)`. -/
def sti (m : Machine) (instr : Nat) : Machine :=
  let r0 := (instr >>> 9) &&& 0x7
  let pc_offset := sign_extend (instr &&& 0x1FF) 9
  let rd := mem_read m ((m.registers PC + pc_offset) % 65536)
  _mem_write rd.2 rd.1 (rd.2.registers r0)

/-- `str(instr)`. -/
def str (m : Machine) (instr : Nat) : Machine :=
  let r0 := (instr >>> 9) &&& 0x7
  let r1 := (instr >>> 6) &&& 0x7
  let offset := sign_extend (instr &&& 0x3F) 6
  _mem_write m ((m.registers r1 + offset) % 65536) (m.registers r0)

/-- `swap16(x)`. -/
def swap16 (x : Nat) : Nat := ((x <<< 8) ||| (x >>> 8)) % 65536

/-- `fread(p, sizeof(uint16_t), max, file)` on a little-endian host: assemble
at most `max` complete 16-bit elements from the byte stream, low byte first.
(A trailing odd byte yields no complete element and is not modelled.) -/
def readWords : Nat → List Nat → List Nat
  | 0, _ => []
  | _, [] => []
  | _, [_] => []
  | max + 1, b0 :: b1 :: rest => ((b0 % 256) + 256 * (b1 % 256)) :: readWords max rest

/-- Store a list of words at consecutive memory indices. -/
def storeWords (m : Machine) (p : Nat) (ws : List Nat) : Machine :=
  match ws with
  | [] => m
  | w :: rest => storeWords (_mem_write m p w) (p + 1) rest

/-- `read_image_file(file)`: read the origin word and byte-swap it, then read
at most `UINT16_MAX - origin` payload words into `memory + origin` and
byte-swap each in place.  (The C code copies raw little-endian words and then
swaps them in a second pass; with no intervening reads the net memory effect
is storing `swap16` of each word, modelled here in one pass.)  A file shorter
than the two origin bytes leaves the VM unchanged (the C code would use an
indeterminate origin; no claim covers this). -/
def read_image_file (m : Machine) (bytes : List Nat) : Machine :=
  match bytes with
  | b0 :: b1 :: rest =>
    let origin := swap16 ((b0 % 256) + 256 * (b1 % 256))
    let max_read := UINT16_MAX - origin
    storeWords m origin ((readWords max_read rest).map swap16)
  | _ => m

/-- `TRAP_PUTS` loop: `while (*c) { putc((char)*c); ++c; }` — the emitted
bytes, with fuel bounding the number of iterations observed. -/
def puts_loop : Nat → Nat → Machine → List Nat
  | 0, _, _ => []
  | fuel + 1, p, m =>
    if m.memory p = 0 then []
    else (m.memory p % 256) :: puts_loop fuel (p + 1) m

/-- `TRAP_PUTSP` loop: each non-zero word emits its low byte unconditionally
and then its high byte only when that byte is non-zero; the pointer advances
every iteration and the loop stops at the first zero word. -/
def putsp_loop : Nat → Nat → Machine → List Nat
  | 0, _, _ => []
  | fuel + 1, p, m =>
    if m.memory p = 0 then []
    else
      (m.memory p &&& 0xFF) ::
        ((if m.memory p >>> 8 ≠ 0 then [m.memory p >>> 8] else []) ++
          putsp_loop fuel (p + 1) m)

/-- Result of one iteration of the main loop: keep running, leave the loop
(`running = 0`, HALT), or `abort()` (RES/RTI/default with a diagnostic). -/
inductive Outcome where
  | running : Machine → Outcome
  | halted : Machine → Outcome
  | aborted : Machine → Outcome

/-- The machine carried by an outcome. -/
def Outcome.machine : Outcome → Machine
  | .running m => m
  | .halted m => m
  | .aborted m => m

/-- Whether the outcome is the HALT exit. -/
def Outcome.isHalted : Outcome → Bool
  | .halted _ => true
  | _ => false

/-- Whether the outcome is the fatal `abort()` (non-zero process exit). -/
def Outcome.isAborted : Outcome → Bool
  | .aborted _ => true
  | _ => false

/-- The `case TRAP:` dispatch on `instr & 0xFF` from the main loop.  Note
that it does not write R7.  An unknown vector matches no case and falls
through (no inner `default:`). -/
def trap (fuel : Nat) (m : Machine) (instr : Nat) : Outcome :=
  let vec := instr &&& 0xFF
  if vec = TRAP_GETC then
    let g := getchar m
    .running (writeReg g.2 R0 (u16_of_int g.1))
  else if vec = TRAP_OUT then
    .running (putcOut m (m.registers R0 % 256))
  else if vec = TRAP_PUTS then
    .running (emitList m (puts_loop fuel (m.registers R0) m))
  else if vec = TRAP_IN then
    let m1 := emitList m (strBytes "Enter a char: ")
    let g := getchar m1
    let c := char_of_int g.1
    let m2 := putcOut g.2 (byte_of_int c)
    .running (writeReg m2 R0 (u16_of_int c))
  else if vec = TRAP_PUTSP then
    .running (emitList m (putsp_loop fuel (m.registers R0) m))
  else if vec = TRAP_HALT then
    .halted (emitList m (strBytes "HALT\n"))
  else .running m

/-- One iteration of the main loop: fetch `mem_read(registers[PC]++)`, split
the opcode, dispatch in the order of the C `switch`; RES, RTI and the default
case print a diagnostic and `abort()`.  `fuel` bounds only the iterations
observed of the PUTS/PUTSP inner loops. -/
def step (fuel : Nat) (m : Machine) : Outcome :=
  let fetch := mem_read m (m.registers PC)
  let instr := fetch.1
  let m1 := writeReg fetch.2 PC (fetch.2.registers PC + 1)
  let op := instr >>> 12
  if op = ADD then .running (add m1 instr)
  else if op = AND then .running (and m1 instr)
  else if op = NOT then .running (not m1 instr)
  else if op = BR then .running (br m1 instr)
  else if op = JMP then .running (jmp m1 instr)
  else if op = JSR then .running (jsr m1 instr)
  else if op = LD then .running (ld m1 instr)
  else if op = LDI then .running (ldi m1 instr)
  else if op = LDR then .running (ldr m1 instr)
  else if op = LEA then .running (lea m1 instr)
  else if op = ST then .running (st m1 instr)
  else if op = STI then .running (sti m1 instr)
  else if op = STR then .running (str m1 instr)
  else if op = TRAP then trap fuel m1 instr
  else .aborted (emitList m1 (strBytes "Aborting...\n"))

/-- Run at most `n` iterations of the main loop; HALT and abort are
terminal. -/
def run (fuel : Nat) : Nat → Machine → Outcome
  | 0, m => .running m
  | n + 1, m =>
    match step fuel m with
    | .running m2 => run fuel n m2
    | o => o

/-- The zero-initialized global state before `main` runs. -/
def initMachine : Machine :=
  { memory := fun _ => 0, registers := fun _ => 0, input := [], output := [] }

/-- The state at the top of the main loop: globals zero-initialized, the
images loaded, then `registers[PC] = PC_START` (0x3000). -/
def startVM (images : List (List Nat)) (input : List Nat) : Machine :=
  let loaded := images.foldl read_image_file { initMachine with input := input }
  writeReg loaded PC 0x3000

/-- The opcodes whose handlers end in `update_flags`. -/
def updatesFlags (op : Nat) : Bool :=
  op == ADD || op == AND || op == NOT || op == LD || op == LDI || op == LDR || op == LEA

/-- Big-endian byte pair of a 16-bit word (image file encoding). -/
def wordBE (w : Nat) : List Nat := [w / 256, w % 256]

/-- The byte stream of an image file with a given origin and payload. -/
def imageBytes (origin : Nat) (ws : List Nat) : List Nat :=
  wordBE origin ++ ws.flatMap wordBE

/-- Concrete state for C3: `TRAP 0x25` (0xF025) at the start address. -/
def c3Machine : Machine :=
  _mem_write (writeReg initMachine PC 0x3000) 0x3000 0xF025

/-- Concrete state for C5: `R0 = 0x0100`. -/
def c5Machine : Machine := writeReg initMachine R0 0x0100

/-- Concrete state fetching a JSR word: `0x4000` at the start address. -/
def c6Machine : Machine :=
  _mem_write (writeReg initMachine PC 0x3000) 0x3000 0x4000

/-- Concrete state fetching an illegal opcode: RES word `0xD000` at the
start address. -/
def c7Machine : Machine :=
  _mem_write (writeReg initMachine PC 0x3000) 0x3000 0xD000

/-- Concrete state for C8: `TRAP 0x24` at 0x3000, `R0 = 0x4000`, and
`mem[0x4000] = 0x4100` (high byte 0x41, low byte zero), `mem[0x4001] = 0`. -/
def c8Machine : Machine :=
  writeReg (_mem_write (_mem_write (writeReg initMachine PC 0x3000) 0x3000 0xF024)
      0x4000 0x4100) R0 0x4000

/-! ### Projection lemmas -/

theorem writeReg_registers (m : Machine) (r v i : Nat) :
    (writeReg m r v).registers i = if i = r then v % 65536 else m.registers i := rfl

theorem writeReg_memory (m : Machine) (r v : Nat) :
    (writeReg m r v).memory = m.memory := rfl

theorem writeReg_output (m : Machine) (r v : Nat) :
    (writeReg m r v).output = m.output := rfl

theorem mem_write_registers (m : Machine) (a v : Nat) :
    (_mem_write m a v).registers = m.registers := rfl

theorem mem_write_output (m : Machine) (a v : Nat) :
    (_mem_write m a v).output = m.output := rfl

theorem mem_write_memory (m : Machine) (a v x : Nat) :
    (_mem_write m a v).memory x = if x = a then v % 65536 else m.memory x := rfl

theorem emitList_output (m : Machine) (bs : List Nat) :
    (emitList m bs).output = m.output ++ bs := rfl

theorem emitList_registers (m : Machine) (bs : List Nat) :
    (emitList m bs).registers = m.registers := rfl

theorem putcOut_registers (m : Machine) (b : Nat) :
    (putcOut m b).registers = m.registers := rfl

theorem getchar_registers (m : Machine) : (getchar m).2.registers = m.registers := by
  unfold getchar; cases m.input <;> rfl

theorem getchar_output (m : Machine) : (getchar m).2.output = m.output := by
  unfold getchar; cases m.input <;> rfl

theorem mem_read_registers (m : Machine) (a : Nat) :
    (mem_read m a).2.registers = m.registers := by
  unfold mem_read
  split_ifs <;> simp [mem_write_registers, getchar_registers]

theorem mem_read_registers_apply (m : Machine) (a i : Nat) :
    (mem_read m a).2.registers i = m.registers i := by
  rw [mem_read_registers]

theorem mem_read_output (m : Machine) (a : Nat) :
    (mem_read m a).2.output = m.output := by
  unfold mem_read
  split_ifs <;> simp [mem_write_output, getchar_output]

/-! ### update_flags lemmas -/

theorem update_flags_COND (m : Machine) (r : Nat) :
    (update_flags m r).registers COND = flagOf (m.registers r) := by
  unfold update_flags flagOf
  split_ifs <;> simp [writeReg_registers, FL_ZRO, FL_NEG, FL_POS]

theorem update_flags_registers_ne (m : Machine) (r i : Nat) (h : i ≠ COND) :
    (update_flags m r).registers i = m.registers i := by
  unfold update_flags
  split_ifs <;> simp [writeReg_registers, h]

theorem update_flags_spec_ne (m : Machine) (r : Nat) (h : r ≠ COND) :
    (update_flags m r).registers COND = flagOf ((update_flags m r).registers r) := by
  rw [update_flags_COND, update_flags_registers_ne m r r h]

theorem field3_ne_COND (x : Nat) : x &&& 0x7 ≠ COND := by
  have h := Nat.and_le_right (n := x) (m := 0x7)
  unfold COND
  omega

theorem flagOf_eq_testBit (v : Nat) (hv : v < 65536) :
    flagOf v = if v = 0 then FL_ZRO else if Nat.testBit v 15 then FL_NEG else FL_POS := by
  unfold flagOf
  have hdiv : v >>> 15 = v / 32768 := by
    rw [Nat.shiftRight_eq_div_pow]
  have htb : Nat.testBit v 15 = decide (v / 2 ^ 15 % 2 = 1) := Nat.testBit_to_div_mod
  rw [hdiv, htb]
  norm_num
  split_ifs <;> omega

/-! ### Instruction handler lemmas -/

theorem br_registers_COND (m : Machine) (instr : Nat) :
    (br m instr).registers COND = m.registers COND := by
  simp only [br]
  split_ifs <;> simp [writeReg_registers, COND, PC]

theorem br_PC_taken (m : Machine) (instr : Nat)
    (h : ((instr >>> 9) &&& 0x7) &&& m.registers COND ≠ 0) :
    (br m instr).registers PC = (m.registers PC + sign_extend (instr &&& 0x1FF) 9) % 65536 := by
  simp only [br]
  rw [if_pos h]
  simp [writeReg_registers]

theorem br_PC_not_taken (m : Machine) (instr : Nat)
    (h : ((instr >>> 9) &&& 0x7) &&& m.registers COND = 0) :
    (br m instr).registers PC = m.registers PC := by
  simp only [br]
  rw [if_neg (by simp [h])]

theorem jmp_registers_COND (m : Machine) (instr : Nat) :
    (jmp m instr).registers COND = m.registers COND := by
  simp [jmp, writeReg_registers, COND, PC]

theorem jsr_registers_COND (m : Machine) (instr : Nat) :
    (jsr m instr).registers COND = m.registers COND := by
  simp only [jsr]
  split_ifs <;> simp [writeReg_registers, COND, PC, R7]

theorem jsr_R7 (m : Machine) (instr : Nat) :
    (jsr m instr).registers R7 = m.registers PC % 65536 := by
  simp only [jsr]
  split_ifs <;> simp [writeReg_registers, R7, PC]

theorem jsr_PC_long (m : Machine) (instr : Nat) (h : (instr >>> 11) &&& 1 ≠ 0) :
    (jsr m instr).registers PC = (m.registers PC + sign_extend (instr &&& 0x7FF) 11) % 65536 := by
  simp only [jsr]
  rw [if_pos h]
  simp [writeReg_registers, R7, PC]

theorem jsr_PC_reg (m : Machine) (instr : Nat) (h : (instr >>> 11) &&& 1 = 0)
    (hne : (instr >>> 6) &&& 0x7 ≠ R7) :
    (jsr m instr).registers PC = m.registers ((instr >>> 6) &&& 0x7) % 65536 := by
  have hne7 : (instr >>> 6) &&& 0x7 ≠ 7 := by simpa [R7] using hne
  simp only [jsr]
  rw [if_neg (by simp [h])]
  simp [writeReg_registers, R7, PC, hne7]

theorem jsr_PC_reg_r7 (m : Machine) (instr : Nat) (h : (instr >>> 11) &&& 1 = 0)
    (heq : (instr >>> 6) &&& 0x7 = R7) :
    (jsr m instr).registers PC = m.registers PC % 65536 % 65536 := by
  have heq7 : (instr >>> 6) &&& 0x7 = 7 := by simpa [R7] using heq
  simp only [jsr]
  rw [if_neg (by simp [h])]
  simp [writeReg_registers, R7, PC, heq7]

theorem st_registers (m : Machine) (instr : Nat) : (st m instr).registers = m.registers := rfl

theorem sti_registers (m : Machine) (instr : Nat) : (sti m instr).registers = m.registers := by
  simp [sti, mem_write_registers, mem_read_registers]

theorem str_registers (m : Machine) (instr : Nat) : (str m instr).registers = m.registers := rfl

theorem trap_registers_COND (fuel : Nat) (m : Machine) (instr : Nat) (m2 : Machine)
    (h : trap fuel m instr = .running m2) :
    m2.registers COND = m.registers COND := by
  simp only [trap] at h
  split_ifs at h <;>
    simp_all [writeReg_registers, putcOut_registers, getchar_registers, emitList_registers,
      COND, R0] <;>
    simp [← h, writeReg_registers, putcOut_registers, getchar_registers, emitList_registers]

/-- The machine after the fetch `mem_read(registers[PC]++)`. -/
theorem fetch_registers (m : Machine) (i : Nat) :
    (writeReg (mem_read m (m.registers PC)).2 PC
        ((mem_read m (m.registers PC)).2.registers PC + 1)).registers i =
      if i = PC then (m.registers PC + 1) % 65536 else m.registers i := by
  simp [writeReg_registers, mem_read_registers_apply]

/-- Core characterization of a step that fetches a BR word. -/
theorem br_step_core (fuel : Nat) (m : Machine)
    (h : (mem_read m (m.registers PC)).1 >>> 12 = BR) :
    ∃ m2, step fuel m = .running m2 ∧
      m2.registers COND = m.registers COND ∧
      ((((mem_read m (m.registers PC)).1 >>> 9) &&& 0x7) &&& m.registers COND ≠ 0 →
        m2.registers PC = ((m.registers PC + 1) % 65536 +
          sign_extend ((mem_read m (m.registers PC)).1 &&& 0x1FF) 9) % 65536) ∧
      ((((mem_read m (m.registers PC)).1 >>> 9) &&& 0x7) &&& m.registers COND = 0 →
        m2.registers PC = (m.registers PC + 1) % 65536) ∧
      (((mem_read m (m.registers PC)).1 >>> 9) &&& 0x7 = 0 →
        m2.registers PC = (m.registers PC + 1) % 65536) := by
  have hstep : step fuel m = .running
      (br (writeReg (mem_read m (m.registers PC)).2 PC
            ((mem_read m (m.registers PC)).2.registers PC + 1))
        (mem_read m (m.registers PC)).1) := by
    simp only [step, h, BR, ADD, AND, NOT]
    norm_num
  refine ⟨_, hstep, ?_, ?_, ?_, ?_⟩
  · rw [br_registers_COND]
    simp [writeReg_registers, mem_read_registers_apply, COND, PC]
  · intro hc
    rw [br_PC_taken]
    · simp [writeReg_registers, mem_read_registers_apply, PC]
    · simpa [writeReg_registers, mem_read_registers_apply, COND, PC] using hc
  · intro hc
    rw [br_PC_not_taken]
    · simp [writeReg_registers, mem_read_registers_apply, PC]
    · simpa [writeReg_registers, mem_read_registers_apply, COND, PC] using hc
  · intro hz
    rw [br_PC_not_taken]
    · simp [writeReg_registers, mem_read_registers_apply, PC]
    · simp [hz]

/-! ### Claim theorems -/

/-- C1: for every executed BR instruction with nzp = bits 11..9 and imm9 =
bits 8..0: if `nzp & COND` is non-zero then PC becomes the post-fetch PC plus
`sign_extend(imm9, 9)` modulo 2^16, otherwise PC keeps its post-fetch value;
COND is not modified; in particular BR with nzp = 0 never modifies PC beyond
the fetch increment. -/
theorem br_step_spec (fuel : Nat) (m : Machine)
    (h : (mem_read m (m.registers PC)).1 >>> 12 = BR) :
    ∃ m2, step fuel m = .running m2 ∧
      m2.registers COND = m.registers COND ∧
      ((((mem_read m (m.registers PC)).1 >>> 9) &&& 0x7) &&& m.registers COND ≠ 0 →
        m2.registers PC = ((m.registers PC + 1) % 65536 +
          sign_extend ((mem_read m (m.registers PC)).1 &&& 0x1FF) 9) % 65536) ∧
      ((((mem_read m (m.registers PC)).1 >>> 9) &&& 0x7) &&& m.registers COND = 0 →
        m2.registers PC = (m.registers PC + 1) % 65536) ∧
      (((mem_read m (m.registers PC)).1 >>> 9) &&& 0x7 = 0 →
        m2.registers PC = (m.registers PC + 1) % 65536) :=
  br_step_core fuel m h

/-- Witness for C1: the all-zero machine fetches word 0, whose opcode is BR. -/
theorem br_step_spec_witness :
    (mem_read initMachine (initMachine.registers PC)).1 >>> 12 = BR ∧
    (∃ m2, step 0 initMachine = .running m2 ∧
      m2.registers COND = initMachine.registers COND ∧
      ((((mem_read initMachine (initMachine.registers PC)).1 >>> 9) &&& 0x7) &&&
          initMachine.registers COND ≠ 0 →
        m2.registers PC = ((initMachine.registers PC + 1) % 65536 +
          sign_extend ((mem_read initMachine (initMachine.registers PC)).1 &&& 0x1FF) 9) % 65536) ∧
      ((((mem_read initMachine (initMachine.registers PC)).1 >>> 9) &&& 0x7) &&&
          initMachine.registers COND = 0 →
        m2.registers PC = (initMachine.registers PC + 1) % 65536) ∧
      (((mem_read initMachine (initMachine.registers PC)).1 >>> 9) &&& 0x7 = 0 →
        m2.registers PC = (initMachine.registers PC + 1) % 65536)) :=
  ⟨by decide, br_step_spec 0 initMachine (by decide)⟩

/-- C6: for every executed JSR instruction, R7 is first set to the post-fetch
PC; then if bit 11 = 1, PC becomes post-fetch PC + `sign_extend(imm11, 11)`
modulo 2^16 (an addition to PC, not an assignment of the offset), else PC
becomes `registers[bits 8..6]` (which is the just-saved post-fetch PC when
that field names R7). -/
theorem jsr_step_spec (fuel : Nat) (m : Machine)
    (hWf : ∀ i, m.registers i < 65536)
    (h : (mem_read m (m.registers PC)).1 >>> 12 = JSR) :
    ∃ m2, step fuel m = .running m2 ∧
      m2.registers R7 = (m.registers PC + 1) % 65536 ∧
      (((mem_read m (m.registers PC)).1 >>> 11) &&& 1 = 1 →
        m2.registers PC = ((m.registers PC + 1) % 65536 +
          sign_extend ((mem_read m (m.registers PC)).1 &&& 0x7FF) 11) % 65536) ∧
      (((mem_read m (m.registers PC)).1 >>> 11) &&& 1 = 0 →
        (((mem_read m (m.registers PC)).1 >>> 6) &&& 0x7 = 7 →
          m2.registers PC = (m.registers PC + 1) % 65536) ∧
        (((mem_read m (m.registers PC)).1 >>> 6) &&& 0x7 ≠ 7 →
          m2.registers PC = m.registers (((mem_read m (m.registers PC)).1 >>> 6) &&& 0x7))) := by
  have hstep : step fuel m = .running
      (jsr (writeReg (mem_read m (m.registers PC)).2 PC
            ((mem_read m (m.registers PC)).2.registers PC + 1))
        (mem_read m (m.registers PC)).1) := by
    simp only [step, h, JSR, ADD, AND, NOT, BR, JMP]
    norm_num
  refine ⟨_, hstep, ?_, ?_, ?_⟩
  · rw [jsr_R7]
    simp [writeReg_registers, mem_read_registers_apply, R7, PC]
  · intro hlong
    rw [jsr_PC_long]
    · simp [writeReg_registers, mem_read_registers_apply, PC]
    · simp [hlong]
  · intro hshort
    constructor
    · intro h7
      rw [jsr_PC_reg_r7 _ _ hshort (by simpa [R7] using h7)]
      simp [writeReg_registers, mem_read_registers_apply, PC]
    · intro h7
      rw [jsr_PC_reg _ _ hshort (by simpa [R7] using h7)]
      have hle : ((mem_read m (m.registers PC)).1 >>> 6) &&& 0x7 ≤ 7 := Nat.and_le_right
      have hlt : ((mem_read m (m.registers PC)).1 >>> 6) &&& 0x7 ≠ PC := by
        intro hcontra
        rw [hcontra] at hle
        norm_num [PC] at hle
      have hreg := hWf (((mem_read m (m.registers PC)).1 >>> 6) &&& 0x7)
      simp [writeReg_registers, mem_read_registers_apply, hlt]
      omega

/-- Registers of `c6Machine` hold 16-bit values. -/
theorem c6Machine_registers_lt (i : Nat) : c6Machine.registers i < 65536 := by
  simp only [c6Machine, mem_write_registers, writeReg_registers]
  split <;> norm_num [initMachine]

/-- Witness for C6: a machine whose fetched word 0x4000 is JSR. -/
theorem jsr_step_spec_witness :
    (mem_read c6Machine (c6Machine.registers PC)).1 >>> 12 = JSR ∧
    (∃ m2, step 0 c6Machine = .running m2 ∧
      m2.registers R7 = (c6Machine.registers PC + 1) % 65536 ∧
      (((mem_read c6Machine (c6Machine.registers PC)).1 >>> 11) &&& 1 = 1 →
        m2.registers PC = ((c6Machine.registers PC + 1) % 65536 +
          sign_extend ((mem_read c6Machine (c6Machine.registers PC)).1 &&& 0x7FF) 11) % 65536) ∧
      (((mem_read c6Machine (c6Machine.registers PC)).1 >>> 11) &&& 1 = 0 →
        (((mem_read c6Machine (c6Machine.registers PC)).1 >>> 6) &&& 0x7 = 7 →
          m2.registers PC = (c6Machine.registers PC + 1) % 65536) ∧
        (((mem_read c6Machine (c6Machine.registers PC)).1 >>> 6) &&& 0x7 ≠ 7 →
          m2.registers PC = c6Machine.registers
            (((mem_read c6Machine (c6Machine.registers PC)).1 >>> 6) &&& 0x7)))) :=
  ⟨by decide, jsr_step_spec 0 c6Machine c6Machine_registers_lt (by decide)⟩

/-- C7: for every fetched instruction whose opcode field is RES (1101) or
RTI (1000), execution fatally aborts with a diagnostic: the step is the
`abort()` outcome (non-zero process exit), the diagnostic "Aborting..." is
printed, and no further instructions are executed afterwards. -/
theorem illegal_opcode_aborts (fuel : Nat) (m : Machine)
    (h : (mem_read m (m.registers PC)).1 >>> 12 = RTI ∨
         (mem_read m (m.registers PC)).1 >>> 12 = RES) :
    ∃ m2, step fuel m = .aborted m2 ∧
      (step fuel m).isAborted = true ∧
      (∀ n, run fuel (n + 1) m = .aborted m2) ∧
      m2.output = m.output ++ strBytes "Aborting...\n" := by
  have hstep : step fuel m = .aborted
      (emitList (writeReg (mem_read m (m.registers PC)).2 PC
          ((mem_read m (m.registers PC)).2.registers PC + 1))
        (strBytes "Aborting...\n")) := by
    rcases h with h | h <;>
      · simp only [step, h, RTI, RES, ADD, AND, NOT, BR, JMP, JSR, LD, LDI, LDR, LEA, ST,
          STI, STR, TRAP]
        norm_num
  refine ⟨_, hstep, ?_, ?_, ?_⟩
  · rw [hstep]
    rfl
  · intro n
    show (match step fuel m with
      | .running m2 => run fuel n m2
      | o => o) = _
    rw [hstep]
  · simp [emitList_output, writeReg_output, mem_read_output]

/-- Witness for C7: a machine whose fetched word 0xD000 has opcode RES. -/
theorem illegal_opcode_aborts_witness :
    ((mem_read c7Machine (c7Machine.registers PC)).1 >>> 12 = RTI ∨
     (mem_read c7Machine (c7Machine.registers PC)).1 >>> 12 = RES) ∧
    (∃ m2, step 0 c7Machine = .aborted m2 ∧
      (step 0 c7Machine).isAborted = true ∧
      (∀ n, run 0 (n + 1) c7Machine = .aborted m2) ∧
      m2.output = c7Machine.output ++ strBytes "Aborting...\n") :=
  ⟨Or.inr (by decide), illegal_opcode_aborts 0 c7Machine (Or.inr (by decide))⟩

/-- C2: for every register index r in [0,9], after `update_flags(r)` COND is
ZRO when the register held 0, NEG when bit 15 of its value is set, and POS
otherwise; consequently after each opcode handler that writes a register
result (ADD, AND, NOT, LD, LDI, LDR, LEA) COND matches the sign/zero of that
destination register's final value. -/
theorem update_flags_cond_spec :
    (∀ (m : Machine) (r : Nat), r ≤ 9 → m.registers r < 65536 →
      (update_flags m r).registers COND =
        (if m.registers r = 0 then FL_ZRO
         else if Nat.testBit (m.registers r) 15 then FL_NEG else FL_POS)) ∧
    (∀ (m : Machine) (instr : Nat),
      (add m instr).registers COND = flagOf ((add m instr).registers ((instr >>> 9) &&& 0x7)) ∧
      (and m instr).registers COND = flagOf ((and m instr).registers ((instr >>> 9) &&& 0x7)) ∧
      (not m instr).registers COND = flagOf ((not m instr).registers ((instr >>> 9) &&& 0x7)) ∧
      (ld m instr).registers COND = flagOf ((ld m instr).registers ((instr >>> 9) &&& 0x7)) ∧
      (ldi m instr).registers COND = flagOf ((ldi m instr).registers ((instr >>> 9) &&& 0x7)) ∧
      (ldr m instr).registers COND = flagOf ((ldr m instr).registers ((instr >>> 9) &&& 0x7)) ∧
      (lea m instr).registers COND = flagOf ((lea m instr).registers ((instr >>> 9) &&& 0x7))) := by
  constructor
  · intro m r _ hv
    rw [update_flags_COND, flagOf_eq_testBit _ hv]
  · intro m instr
    refine ⟨?_, ?_, ?_, ?_, ?_, ?_, ?_⟩ <;>
      exact update_flags_spec_ne _ _ (field3_ne_COND _)

/-- Witness for C2: `update_flags(0)` on the all-zero machine sets ZRO. -/
theorem update_flags_cond_spec_witness :
    (0 : Nat) ≤ 9 ∧ initMachine.registers 0 < 65536 ∧
    (update_flags initMachine 0).registers COND =
      (if initMachine.registers 0 = 0 then FL_ZRO
       else if Nat.testBit (initMachine.registers 0) 15 then FL_NEG else FL_POS) :=
  ⟨by decide, by decide, update_flags_cond_spec.1 initMachine 0 (by decide) (by decide)⟩

/-- C3 (code bug): executing `TRAP 0x25` (word 0xF025) at 0x3000 runs the
HALT service routine (so trap routines do run under the TRAP opcode), but R7
is left at 0 instead of receiving the post-fetch PC 0x3001 — the dispatch
never writes R7. -/
theorem trap_skips_r7_save :
    (step 0 c3Machine).isHalted = true ∧
    (step 0 c3Machine).machine.registers PC = 0x3001 ∧
    (step 0 c3Machine).machine.registers R7 = 0 ∧
    (step 0 c3Machine).machine.registers R7 ≠ 0x3001 := by decide

/-- C4 (code bug): the global array is declared `uint16_t memory[UINT16_MAX]`,
i.e. 65,535 cells — not 65,536 — so the valid indices stop at 0xFFFE and
address 0xFFFF is out of bounds. -/
theorem memory_len_excludes_top_address :
    MEMORY_LEN = UINT16_MAX ∧ MEMORY_LEN = 65535 ∧
    ¬ memInBounds 0xFFFF ∧ memInBounds 0xFFFE := by
  constructor
  · rfl
  · refine ⟨rfl, ?_, ?_⟩ <;> simp [memInBounds, MEMORY_LEN, UINT16_MAX]

/-- C5 (code bug): `AND R0, R0, #-1` (word 0x503F, imm5 = 0x1F) with
R0 = 0x0100: the handler uses the raw 5-bit immediate without sign
extension, producing `0x0100 & 0x001F = 0` and COND = ZRO, whereas the
claimed semantics `R0 & sign_extend(0x1F, 5) = 0x0100 & 0xFFFF` yields
0x0100 (COND = POS). -/
theorem and_imm_not_sign_extended :
    (and c5Machine 0x503F).registers R0 = 0 ∧
    (and c5Machine 0x503F).registers COND = FL_ZRO ∧
    c5Machine.registers R0 &&& sign_extend 0x1F 5 = 0x0100 ∧
    (and c5Machine 0x503F).registers R0 ≠
      c5Machine.registers R0 &&& sign_extend 0x1F 5 := by decide

/-! ### Image loading lemmas -/

theorem storeWords_registers :
    ∀ (ws : List Nat) (m : Machine) (p : Nat), (storeWords m p ws).registers = m.registers := by
  intro ws
  induction ws with
  | nil => intro m p; rfl
  | cons w t ih => intro m p; simp [storeWords, ih, mem_write_registers]

theorem read_image_file_registers (m : Machine) (bytes : List Nat) :
    (read_image_file m bytes).registers = m.registers := by
  rcases bytes with _ | ⟨b0, _ | ⟨b1, rest⟩⟩ <;>
    simp [read_image_file, storeWords_registers]

theorem foldl_read_image_registers :
    ∀ (images : List (List Nat)) (m : Machine),
      (images.foldl read_image_file m).registers = m.registers := by
  intro images
  induction images with
  | nil => intro m; rfl
  | cons img t ih => intro m; rw [List.foldl_cons, ih, read_image_file_registers]

theorem startVM_COND (images : List (List Nat)) (input : List Nat) :
    (startVM images input).registers COND = 0 := by
  simp only [startVM, writeReg_registers, foldl_read_image_registers]
  norm_num [COND, PC, initMachine]

/-- C10: in the initial state COND is 0, which is none of POS, ZRO, NEG;
a BR fetched while COND = 0 leaves PC at its post-fetch value for every nzp
field and keeps COND = 0; and every non-flag-updating opcode (everything but
ADD, AND, NOT, LD, LDI, LDR, LEA) preserves COND = 0, so every BR executed
before the first flag-updating instruction leaves PC at its post-fetch
value. -/
theorem br_before_first_flag_update :
    (∀ (images : List (List Nat)) (input : List Nat),
      (startVM images input).registers COND = 0) ∧
    ((0 : Nat) ≠ FL_POS ∧ (0 : Nat) ≠ FL_ZRO ∧ (0 : Nat) ≠ FL_NEG) ∧
    (∀ (fuel : Nat) (m : Machine), m.registers COND = 0 →
      (mem_read m (m.registers PC)).1 >>> 12 = BR →
      ∃ m2, step fuel m = .running m2 ∧
        m2.registers PC = (m.registers PC + 1) % 65536 ∧
        m2.registers COND = 0) ∧
    (∀ (fuel : Nat) (m : Machine) (m2 : Machine), m.registers COND = 0 →
      updatesFlags ((mem_read m (m.registers PC)).1 >>> 12) = false →
      step fuel m = .running m2 → m2.registers COND = 0) := by
  refine ⟨startVM_COND, by norm_num [FL_POS, FL_ZRO, FL_NEG], ?_, ?_⟩
  · intro fuel m hc h
    obtain ⟨m2, hstep, hcond, htaken, hnot, hz⟩ := br_step_core fuel m h
    exact ⟨m2, hstep, hnot (by simp [hc]), hcond.trans hc⟩
  · intro fuel m m2 hc hflag hstep
    have hcond1 : (writeReg (mem_read m (m.registers PC)).2 PC
        ((mem_read m (m.registers PC)).2.registers PC + 1)).registers COND = 0 := by
      simpa [writeReg_registers, mem_read_registers_apply, COND, PC] using hc
    simp only [step] at hstep
    set f := mem_read m (m.registers PC) with hf
    set m1 := writeReg f.2 PC (f.2.registers PC + 1) with hm1
    by_cases h1 : f.1 >>> 12 = ADD
    · rw [h1] at hflag
      norm_num [updatesFlags, ADD] at hflag
    rw [if_neg h1] at hstep
    by_cases h2 : f.1 >>> 12 = AND
    · rw [h2] at hflag
      norm_num [updatesFlags, AND] at hflag
    rw [if_neg h2] at hstep
    by_cases h3 : f.1 >>> 12 = NOT
    · rw [h3] at hflag
      norm_num [updatesFlags, NOT] at hflag
    rw [if_neg h3] at hstep
    by_cases h4 : f.1 >>> 12 = BR
    · rw [if_pos h4] at hstep
      injection hstep with hEq
      subst hEq
      rw [br_registers_COND]
      exact hcond1
    rw [if_neg h4] at hstep
    by_cases h5 : f.1 >>> 12 = JMP
    · rw [if_pos h5] at hstep
      injection hstep with hEq
      subst hEq
      rw [jmp_registers_COND]
      exact hcond1
    rw [if_neg h5] at hstep
    by_cases h6 : f.1 >>> 12 = JSR
    · rw [if_pos h6] at hstep
      injection hstep with hEq
      subst hEq
      rw [jsr_registers_COND]
      exact hcond1
    rw [if_neg h6] at hstep
    by_cases h7 : f.1 >>> 12 = LD
    · rw [h7] at hflag
      norm_num [updatesFlags, LD] at hflag
    rw [if_neg h7] at hstep
    by_cases h8 : f.1 >>> 12 = LDI
    · rw [h8] at hflag
      norm_num [updatesFlags, LDI] at hflag
    rw [if_neg h8] at hstep
    by_cases h9 : f.1 >>> 12 = LDR
    · rw [h9] at hflag
      norm_num [updatesFlags, LDR] at hflag
    rw [if_neg h9] at hstep
    by_cases h10 : f.1 >>> 12 = LEA
    · rw [h10] at hflag
      norm_num [updatesFlags, LEA] at hflag
    rw [if_neg h10] at hstep
    by_cases h11 : f.1 >>> 12 = ST
    · rw [if_pos h11] at hstep
      injection hstep with hEq
      subst hEq
      rw [st_registers]
      exact hcond1
    rw [if_neg h11] at hstep
    by_cases h12 : f.1 >>> 12 = STI
    · rw [if_pos h12] at hstep
      injection hstep with hEq
      subst hEq
      rw [sti_registers]
      exact hcond1
    rw [if_neg h12] at hstep
    by_cases h13 : f.1 >>> 12 = STR
    · rw [if_pos h13] at hstep
      injection hstep with hEq
      subst hEq
      rw [str_registers]
      exact hcond1
    rw [if_neg h13] at hstep
    by_cases h14 : f.1 >>> 12 = TRAP
    · rw [if_pos h14] at hstep
      exact (trap_registers_COND _ _ _ _ hstep).trans hcond1
    rw [if_neg h14] at hstep
    exact absurd hstep (by simp)

/-- Witness for C10: the freshly started machine fetches word 0 (a BR). -/
theorem br_before_first_flag_update_witness :
    (startVM [] []).registers COND = 0 ∧
    (mem_read (startVM [] []) ((startVM [] []).registers PC)).1 >>> 12 = BR ∧
    (∃ m2, step 0 (startVM [] []) = .running m2 ∧
      m2.registers PC = ((startVM [] []).registers PC + 1) % 65536 ∧
      m2.registers COND = 0) :=
  ⟨by decide, by decide,
    br_before_first_flag_update.2.2.1 0 (startVM [] []) (by decide) (by decide)⟩

/-- C8 counterexample: executing `TRAP 0x24` with `mem[R0] = 0x4100`
(non-zero word whose low byte is zero) writes the zero low byte to output —
the claim that only non-zero bytes are emitted is false. -/
theorem putsp_emits_zero_byte :
    (step 2 c8Machine).machine.output = [0x00, 0x41] ∧
    0x00 ∈ (step 2 c8Machine).machine.output := by decide

/-- C8 (amended): PUTSP stops at the first zero word at or after R0, and for
each preceding word emits its low byte unconditionally (even when that byte
is zero) followed by its high byte only when the high byte is non-zero. -/
theorem putsp_loop_spec :
    ∀ (k fuel p : Nat) (m : Machine), k < fuel →
      (∀ j, j < k → m.memory (p + j) ≠ 0) →
      m.memory (p + k) = 0 →
      putsp_loop fuel p m = (List.range k).flatMap (fun j =>
        (m.memory (p + j) &&& 0xFF) ::
          (if m.memory (p + j) >>> 8 ≠ 0 then [m.memory (p + j) >>> 8] else [])) := by
  intro k
  induction k with
  | zero =>
    intro fuel p m hfuel _ hz
    cases fuel with
    | zero => omega
    | succ fl =>
      simp only [putsp_loop]
      rw [if_pos (by simpa using hz)]
      simp
  | succ k ih =>
    intro fuel p m hfuel hnz hz
    cases fuel with
    | zero => omega
    | succ fl =>
      have hp0 : m.memory p ≠ 0 := by simpa using hnz 0 (by omega)
      have hrest : putsp_loop fl (p + 1) m = (List.range k).flatMap (fun j =>
          (m.memory ((p + 1) + j) &&& 0xFF) ::
            (if m.memory ((p + 1) + j) >>> 8 ≠ 0
             then [m.memory ((p + 1) + j) >>> 8] else [])) := by
        refine ih fl (p + 1) m (by omega) ?_ ?_
        · intro j hj
          have := hnz (j + 1) (by omega)
          simpa [Nat.add_assoc, Nat.add_comm 1 j] using this
        · have := hz
          simpa [Nat.add_assoc, Nat.add_comm 1 k] using this
      have hfun : (fun j => (m.memory ((p + 1) + j) &&& 0xFF) ::
            (if m.memory ((p + 1) + j) >>> 8 ≠ 0
             then [m.memory ((p + 1) + j) >>> 8] else [])) =
          (fun j => (m.memory (p + Nat.succ j) &&& 0xFF) ::
            (if m.memory (p + Nat.succ j) >>> 8 ≠ 0
             then [m.memory (p + Nat.succ j) >>> 8] else [])) := by
        funext j
        rw [show p + Nat.succ j = p + 1 + j by omega]
      simp only [putsp_loop]
      rw [if_neg hp0, hrest, hfun, List.range_succ_eq_map, List.flatMap_cons,
        List.flatMap_map]
      simp [Nat.add_zero, List.cons_append]

/-- Witness for the amended C8: one non-zero word 0x4100 then a zero word. -/
theorem putsp_loop_spec_witness :
    (1 : Nat) < 2 ∧
    (∀ j, j < 1 → c8Machine.memory (0x4000 + j) ≠ 0) ∧
    c8Machine.memory (0x4000 + 1) = 0 ∧
    putsp_loop 2 0x4000 c8Machine = (List.range 1).flatMap (fun j =>
      (c8Machine.memory (0x4000 + j) &&& 0xFF) ::
        (if c8Machine.memory (0x4000 + j) >>> 8 ≠ 0
         then [c8Machine.memory (0x4000 + j) >>> 8] else [])) :=
  ⟨by decide,
   fun j hj => by
     have hj0 : j = 0 := by omega
     subst hj0
     decide,
   by decide,
   putsp_loop_spec 1 2 0x4000 c8Machine (by decide)
     (fun j hj => by
       have hj0 : j = 0 := by omega
       subst hj0
       decide)
     (by decide)⟩

/-! ### Byte-swap and image decoding lemmas -/

theorem swap16_be (w : Nat) (hw : w < 65536) :
    swap16 (w / 256 + 256 * (w % 256)) = w := by
  unfold swap16
  have hq : w / 256 < 256 := by omega
  have hr : w % 256 < 256 := by omega
  have hdiv : (w / 256 + 256 * (w % 256)) >>> 8 = w % 256 := by
    rw [Nat.shiftRight_eq_div_pow]
    omega
  have hshl : (w / 256 + 256 * (w % 256)) <<< 8 = (w / 256 + 256 * (w % 256)) * 256 := by
    rw [Nat.shiftLeft_eq]
  rw [hdiv, hshl]
  have hor : (w / 256 + 256 * (w % 256)) * 256 ||| w % 256 =
      (w / 256 + 256 * (w % 256)) * 256 + w % 256 := by
    have h := Nat.mul_add_lt_is_or (i := 8) (b := w % 256) (by omega)
      (w / 256 + 256 * (w % 256))
    calc (w / 256 + 256 * (w % 256)) * 256 ||| w % 256
        = 2 ^ 8 * (w / 256 + 256 * (w % 256)) ||| w % 256 := by ring_nf
      _ = 2 ^ 8 * (w / 256 + 256 * (w % 256)) + w % 256 := h.symm
      _ = (w / 256 + 256 * (w % 256)) * 256 + w % 256 := by ring
  rw [hor]
  omega

theorem readWords_length_le : ∀ (n : Nat) (bs : List Nat), (readWords n bs).length ≤ n := by
  intro n
  induction n with
  | zero => intro bs; rcases bs with _ | ⟨b0, _ | ⟨b1, r⟩⟩ <;> simp [readWords]
  | succ n ih =>
    intro bs
    rcases bs with _ | ⟨b0, _ | ⟨b1, r⟩⟩
    · simp [readWords]
    · simp [readWords]
    · simp only [readWords, List.length_cons]
      exact Nat.succ_le_succ (ih r)

theorem readWords_flatMap_wordBE :
    ∀ (ws : List Nat) (n : Nat), (∀ w ∈ ws, w < 65536) → ws.length ≤ n →
      readWords n (ws.flatMap wordBE) =
        ws.map (fun w => w / 256 + 256 * (w % 256)) := by
  intro ws
  induction ws with
  | nil => intro n _ _; cases n <;> rfl
  | cons w t ih =>
    intro n hw hlen
    cases n with
    | zero => simp at hlen
    | succ n2 =>
      have hw0 : w < 65536 := hw w (by simp)
      have h1 : w / 256 % 256 = w / 256 := Nat.mod_eq_of_lt (by omega)
      have h2 : w % 256 % 256 = w % 256 := Nat.mod_eq_of_lt (by omega)
      have hexp : (w :: t).flatMap wordBE = w / 256 :: w % 256 :: t.flatMap wordBE := by
        simp [wordBE]
      rw [hexp]
      simp only [readWords, List.map_cons]
      rw [h1, h2, ih n2 (fun x hx => hw x (by simp [hx])) (by simpa using hlen)]

theorem storeWords_memory_lt :
    ∀ (ws : List Nat) (m : Machine) (p a : Nat), a < p →
      (storeWords m p ws).memory a = m.memory a := by
  intro ws
  induction ws with
  | nil => intro m p a _; rfl
  | cons w t ih =>
    intro m p a ha
    simp only [storeWords]
    rw [ih _ (p + 1) a (by omega), mem_write_memory, if_neg (by omega)]

theorem storeWords_memory_ge :
    ∀ (ws : List Nat) (m : Machine) (p a : Nat), p + ws.length ≤ a →
      (storeWords m p ws).memory a = m.memory a := by
  intro ws
  induction ws with
  | nil => intro m p a _; rfl
  | cons w t ih =>
    intro m p a ha
    simp only [List.length_cons] at ha
    simp only [storeWords]
    rw [ih _ (p + 1) a (by omega), mem_write_memory, if_neg (by omega)]

theorem storeWords_memory_get :
    ∀ (ws : List Nat) (m : Machine) (p i : Nat) (hi : i < ws.length),
      (storeWords m p ws).memory (p + i) = ws.get ⟨i, hi⟩ % 65536 := by
  intro ws
  induction ws with
  | nil => intro m p i hi; simp at hi
  | cons w t ih =>
    intro m p i hi
    cases i with
    | zero =>
      simp only [storeWords, Nat.add_zero]
      rw [storeWords_memory_lt t _ (p + 1) p (by omega), mem_write_memory, if_pos rfl]
      rfl
    | succ i2 =>
      simp only [storeWords]
      have : p + Nat.succ i2 = (p + 1) + i2 := by omega
      rw [this, ih _ (p + 1) i2 (by simpa using hi)]
      rfl

theorem read_image_file_eq (m : Machine) (origin : Nat) (ws : List Nat)
    (horigin : origin < 65536) (hws : ∀ w ∈ ws, w < 65536)
    (hlen : ws.length ≤ UINT16_MAX - origin) :
    read_image_file m (imageBytes origin ws) = storeWords m origin ws := by
  have hob : imageBytes origin ws = origin / 256 :: origin % 256 :: ws.flatMap wordBE := by
    simp [imageBytes, wordBE]
  have h1 : origin / 256 % 256 = origin / 256 := Nat.mod_eq_of_lt (by omega)
  have h2 : origin % 256 % 256 = origin % 256 := Nat.mod_eq_of_lt (by omega)
  rw [hob]
  simp only [read_image_file]
  rw [h1, h2, swap16_be origin horigin,
    readWords_flatMap_wordBE ws (UINT16_MAX - origin) hws hlen, List.map_map]
  congr 1
  calc List.map (swap16 ∘ fun w => w / 256 + 256 * (w % 256)) ws
      = List.map id ws :=
        List.map_congr_left (fun a ha => by
          simp only [Function.comp_apply, id_eq]
          exact swap16_be a (hws a ha))
    _ = ws := List.map_id ws

/-- C9 (amended/corrected): loading an image with origin O and payload words
W0..Wk-1 (encoded big-endian) gives mem[O+i] = Wi for every i < k whenever
k ≤ 0xFFFF − O, leaves memory outside [O, O+k) and all registers unchanged,
and the loader reads at most `UINT16_MAX − O` = 0x10000 − O − 1 payload
words — one fewer than the claimed 0x10000 − O, so the word destined for
address 0xFFFF is never loaded. -/
theorem read_image_roundtrip (m : Machine) (origin : Nat) (ws : List Nat)
    (horigin : origin < 65536) (hws : ∀ w ∈ ws, w < 65536)
    (hlen : ws.length ≤ UINT16_MAX - origin) :
    (∀ i (hi : i < ws.length),
      (read_image_file m (imageBytes origin ws)).memory (origin + i) = ws.get ⟨i, hi⟩) ∧
    (∀ a, a < origin ∨ origin + ws.length ≤ a →
      (read_image_file m (imageBytes origin ws)).memory a = m.memory a) ∧
    (read_image_file m (imageBytes origin ws)).registers = m.registers ∧
    (∀ bs : List Nat, (readWords (UINT16_MAX - origin) bs).length ≤ UINT16_MAX - origin) := by
  have he := read_image_file_eq m origin ws horigin hws hlen
  refine ⟨?_, ?_, ?_, fun bs => readWords_length_le _ bs⟩
  · intro i hi
    rw [he, storeWords_memory_get ws m origin i hi]
    exact Nat.mod_eq_of_lt (hws _ (ws.get_mem _ _))
  · intro a ha
    rw [he]
    rcases ha with ha | ha
    · exact storeWords_memory_lt ws m origin a ha
    · exact storeWords_memory_ge ws m origin a ha
  · rw [he, storeWords_registers]

/-- C9 counterexample: an image with origin 0xFFFF and a single payload word
0xBEEF destined for address 0xFFFF.  The loader computes
`max_read = UINT16_MAX − origin = 0` and reads no payload word, so memory at
0xFFFF stays 0 — the claim that such a payload is loaded in full is false. -/
theorem image_word_for_top_address_dropped :
    (read_image_file initMachine (imageBytes 0xFFFF [0xBEEF])).memory 0xFFFF = 0 ∧
    (read_image_file initMachine (imageBytes 0xFFFF [0xBEEF])).memory 0xFFFF ≠ 0xBEEF := by
  decide

/-- Witness for the amended C9: origin 0x3000 with one payload word 0x1234. -/
theorem read_image_roundtrip_witness :
    (0x3000 : Nat) < 65536 ∧ (∀ w ∈ ([0x1234] : List Nat), w < 65536) ∧
    ([0x1234] : List Nat).length ≤ UINT16_MAX - 0x3000 ∧
    ((∀ i (hi : i < ([0x1234] : List Nat).length),
      (read_image_file initMachine (imageBytes 0x3000 [0x1234])).memory (0x3000 + i) =
        ([0x1234] : List Nat).get ⟨i, hi⟩) ∧
    (∀ a, a < 0x3000 ∨ 0x3000 + ([0x1234] : List Nat).length ≤ a →
      (read_image_file initMachine (imageBytes 0x3000 [0x1234])).memory a =
        initMachine.memory a) ∧
    (read_image_file initMachine (imageBytes 0x3000 [0x1234])).registers =
      initMachine.registers ∧
    (∀ bs : List Nat,
      (readWords (UINT16_MAX - 0x3000) bs).length ≤ UINT16_MAX - 0x3000)) :=
  ⟨by decide, by decide, by decide,
    read_image_roundtrip initMachine 0x3000 [0x1234] (by decide) (by decide) (by decide)⟩

end LC3
